import Mathlib

/-!
Shallow embedding of `src/main.rs` of ddoffy/mobile-trackpad.

The embedded pieces:
* the event translator `MouseController::handle_event` (lines 84-206),
* the websocket dispatch of decoded events (lines 244-275),
* the upload handler `handle_upload` (lines 278-335),
* the background sweep `cleanup_old_files` (lines 337-361).

Modelling conventions:
* Rust `f64` is modelled by `F64`: NaN, the two infinities, or an exact
  rational value.  Arithmetic used by the code (`abs`, division by `10.0`)
  is modelled exactly on the rational part; this agrees with IEEE `f64`
  whenever the true result is representable (which holds for every concrete
  input used in the theorems below).  The literal `0.1` is modelled by the
  exact rational value of the `f64` constant `0.1`.
* Rust `u64` is modelled by `Nat` with wrapping subtraction made explicit
  (`% 2 ^ 64`), matching release-mode overflow semantics.
* `HashMap<String, FileInfo>` and the `./uploads` directory are modelled as
  association lists with replace-on-insert; filesystem errors (ignored by
  the code via `.ok()`) and `emit` I/O errors are outside the model: the
  translator's observable output is its sequence of gestures.
-/

namespace MobileTrackpad

/-! ### evdev constants (linux input-event-codes.h), as registered in `MouseController::new` -/

def BTN_LEFT : Nat := 272
def BTN_RIGHT : Nat := 273
def BTN_MIDDLE : Nat := 274
def KEY_LEFT : Nat := 105
def KEY_RIGHT : Nat := 106
def KEY_UP : Nat := 103
def KEY_DOWN : Nat := 108
def KEY_LEFTALT : Nat := 56
def REL_X : Nat := 0
def REL_Y : Nat := 1
def REL_WHEEL : Nat := 8
def REL_HWHEEL : Nat := 6

/-! ### f64 model and Rust numeric casts -/

/-- A Rust `f64` value: NaN, an infinity, or a finite value given by its exact
rational magnitude. -/
inductive F64
  | nan
  | pinf
  | ninf
  | fin (q : ℚ)
  deriving DecidableEq

/-- `f64::abs`. -/
def fabs : F64 → F64
  | .nan => .nan
  | .pinf => .pinf
  | .ninf => .pinf
  | .fin q => .fin |q|

/-- The exact rational value of the `f64` literal `0.1`
(`0.1` is not representable; the nearest double is `3602879701896397 / 2^55`). -/
def lit01 : ℚ := 3602879701896397 / 2 ^ 55

/-- `x > c` for an `f64` `x` and a finite constant `c` (NaN compares false). -/
def fgt (x : F64) (c : ℚ) : Bool :=
  match x with
  | .nan => false
  | .pinf => true
  | .ninf => false
  | .fin q => decide (c < q)

/-- `x / 10.0`; the rational part is exact division (see module comment). -/
def fdiv10 : F64 → F64
  | .nan => .nan
  | .pinf => .pinf
  | .ninf => .ninf
  | .fin q => .fin (q / 10)

/-- Truncation toward zero of a rational. -/
def ratTrunc (q : ℚ) : Int :=
  if 0 ≤ q then ⌊q⌋ else ⌈q⌉

/-- Rust `as i32` on an `f64`: NaN to 0, truncate toward zero, saturate to
`[-2^31, 2^31 - 1]`. -/
def castI32 : F64 → Int
  | .nan => 0
  | .pinf => 2 ^ 31 - 1
  | .ninf => -(2 ^ 31)
  | .fin q =>
      if ratTrunc q < -(2 ^ 31) then -(2 ^ 31)
      else if 2 ^ 31 - 1 < ratTrunc q then 2 ^ 31 - 1
      else ratTrunc q

/-- Negation of an `i32` value, wrapping at `i32::MIN` (release semantics of
the `-` in `-(dx / 10.0) as i32`, which parses as `-((dx / 10.0) as i32)`). -/
def i32neg (x : Int) : Int :=
  if x = -(2 ^ 31) then -(2 ^ 31) else -x

/-! ### The decoded wire protocol (`TrackpadEvent`, lines 13-32) -/

/-- The tagged union of decoded remote events. -/
inductive TrackpadEvent
  | move (dx dy : F64)
  | click (button : String)
  | scroll (dx dy : F64)
  | dragStart
  | dragEnd
  | swipe (direction : String)
  | arrowKey (key : String)
  | clipboard (content : String)
  deriving DecidableEq

/-- One evdev `InputEvent` as emitted by the controller: a relative-axis
motion, a key transition (`1` = down, `0` = up), or a sync barrier
(`EV_SYN`, code 0, value 0). -/
inductive DeviceAction
  | rel (axis : Nat) (value : Int)
  | key (code : Nat) (value : Int)
  | syn
  deriving DecidableEq

/-- One `device.emit(..)` call: an ordered batch of input events flushed
together. -/
abbrev Gesture := List DeviceAction

/-- The button-string decoding in the `Click` arm (lines 97-102): unknown
strings fall through to `BTN_LEFT`. -/
def clickKey (button : String) : Nat :=
  if button = "left" then BTN_LEFT
  else if button = "right" then BTN_RIGHT
  else if button = "middle" then BTN_MIDDLE
  else BTN_LEFT

/-- `MouseController::handle_event` (lines 84-206): the list of `emit`
batches issued for one event, in order.  `Clipboard` is a no-op here
(lines 199-202). -/
def handleEvent : TrackpadEvent → List Gesture
  | .move dx dy =>
      [[.rel REL_X (castI32 dx), .rel REL_Y (castI32 dy), .syn]]
  | .click button =>
      [[.key (clickKey button) 1, .syn], [.key (clickKey button) 0, .syn]]
  | .scroll dx dy =>
      [(if fgt (fabs dy) lit01 then [DeviceAction.rel REL_WHEEL (castI32 (fdiv10 dy))] else [])
        ++ (if fgt (fabs dx) lit01 then
              [DeviceAction.rel REL_HWHEEL (i32neg (castI32 (fdiv10 dx)))] else [])
        ++ [DeviceAction.syn]]
  | .dragStart =>
      [[.key BTN_LEFT 1, .syn]]
  | .dragEnd =>
      [[.key BTN_LEFT 0, .syn]]
  | .swipe direction =>
      if direction = "left" then
        [[.key KEY_LEFTALT 1, .syn], [.key KEY_LEFT 1, .syn],
         [.key KEY_LEFT 0, .syn], [.key KEY_LEFTALT 0, .syn]]
      else if direction = "right" then
        [[.key KEY_LEFTALT 1, .syn], [.key KEY_RIGHT 1, .syn],
         [.key KEY_RIGHT 0, .syn], [.key KEY_LEFTALT 0, .syn]]
      else []
  | .arrowKey k =>
      if k = "up" then [[.key KEY_UP 1, .syn], [.key KEY_UP 0, .syn]]
      else if k = "down" then [[.key KEY_DOWN 1, .syn], [.key KEY_DOWN 0, .syn]]
      else if k = "left" then [[.key KEY_LEFT 1, .syn], [.key KEY_LEFT 0, .syn]]
      else if k = "right" then [[.key KEY_RIGHT 1, .syn], [.key KEY_RIGHT 0, .syn]]
      else []
  | .clipboard _ => []

/-! ### Clipboard hub and websocket dispatch (lines 209-276) -/

/-- An item broadcast on the clipboard channel (lines 34-39). -/
structure ClipboardItem where
  content : String
  timestamp : Nat
  source : String
  deriving DecidableEq

/-- The routing done in `handle_websocket` for one decoded event
(lines 248-266): a `Clipboard` event is published to the broadcast channel
tagged `source = "Client"` and never reaches the controller; every other
event goes to `handle_event`.  Returns (gestures emitted, items published). -/
def dispatchEvent (now : Nat) (ev : TrackpadEvent) : List Gesture × List ClipboardItem :=
  match ev with
  | .clipboard content => ([], [⟨content, now, "Client"⟩])
  | e => (handleEvent e, [])

/-! ### File store (lines 41-49, 278-361) -/

/-- `FileInfo` (lines 41-47); `size` and `uploaded_at` are `u64`. -/
structure FileInfo where
  id : String
  filename : String
  size : Nat
  uploaded_at : Nat
  deriving DecidableEq

/-- The store's observable state: the in-memory `HashMap<String, FileInfo>`
index and the `./uploads/<id>` blob directory, both as association lists
keyed by id. -/
structure StoreState where
  index : List (String × FileInfo)
  blobs : List (String × List Nat)
  deriving DecidableEq

def emptyStore : StoreState := ⟨[], []⟩

/-- Replace-on-insert for a string-keyed association list (the semantics of
`HashMap::insert` and of `File::create` overwriting an existing path). -/
def insertAssoc {α : Type} (k : String) (v : α) (l : List (String × α)) :
    List (String × α) :=
  (k, v) :: l.filter (fun p => !(p.1 == k))

/-- Key removal (the semantics of `HashMap::remove` and `fs::remove_file`). -/
def removeAssoc {α : Type} (k : String) (l : List (String × α)) :
    List (String × α) :=
  l.filter (fun p => !(p.1 == k))

/-- `u64` subtraction `a - b`, wrapping modulo `2^64` (release semantics of
`now - info.uploaded_at` at line 350); both arguments are `u64` values. -/
def wsub64 (a b : Nat) : Nat :=
  (a + 2 ^ 64 - b) % 2 ^ 64

/-- The expiry test of the sweep (line 350): `now - info.uploaded_at > 3600`
in `u64` arithmetic. -/
def isExpired (now : Nat) (info : FileInfo) : Bool :=
  decide (3600 < wsub64 now info.uploaded_at)

/-- The ids collected by one sweep pass (lines 346-353). -/
def expiredIds (now : Nat) (st : StoreState) : List String :=
  (st.index.filter (fun p => isExpired now p.2)).map Prod.fst

/-- One pass of `cleanup_old_files` (lines 346-359): collect the expired ids,
then remove each from the index and delete its blob. -/
def sweep (now : Nat) (st : StoreState) : StoreState :=
  { index := st.index.filter (fun p => !((expiredIds now st).contains p.1)),
    blobs := st.blobs.filter (fun p => !((expiredIds now st).contains p.1)) }

/-! ### Upload handler (lines 278-335) -/

/-- One decoded multipart part: its field name, optional client filename, and
byte payload. -/
structure Part where
  name : String
  filename : Option String
  data : List Nat
  deriving DecidableEq

/-- The JSON reply of `handle_upload`: `{"id", "filename"}` on success or
`{"error": msg}`. -/
inductive UploadReply
  | ok (id filename : String)
  | err (msg : String)
  deriving DecidableEq

/-- `handle_upload` (lines 278-335) as a pure function of the decoded parts.
`freshId` stands for the generated UUID and `now` for the upload timestamp.
It scans the parts in order; the first part named `"file"` is persisted
(blob write at lines 298-309, index insert at line 318, broadcast
notification at lines 321-325) and the handler returns immediately, so later
parts are ignored; if no part is named `"file"` the error reply is returned
and nothing changes.  Result: (reply, new store state, items published). -/
def handle_upload (freshId : String) (now : Nat) :
    List Part → StoreState → UploadReply × StoreState × List ClipboardItem
  | [], st => (.err "No file uploaded", st, [])
  | p :: rest, st =>
      if p.name = "file" then
        let filename := p.filename.getD "unnamed"
        (.ok freshId filename,
         { index := insertAssoc freshId ⟨freshId, filename, p.data.length, now⟩ st.index,
           blobs := insertAssoc freshId p.data st.blobs },
         [⟨"File uploaded: " ++ filename, now, "System"⟩])
      else handle_upload freshId now rest st

/-! ### Micro-step model of store mutations (for the critical-section claim)

`handle_upload` writes the blob file (line 309) and only afterwards takes the
store mutex to insert the index entry (line 318); the sweep takes the mutex
to remove the index entry (line 356), releases it, and only then deletes the
blob file (line 358).  Each micro-step below is one such atomic action; the
in-between states are observable because no lock spans two steps. -/

inductive MicroOp
  | writeBlob (id : String) (data : List Nat)
  | insertIndex (id : String) (info : FileInfo)
  | removeIndex (id : String)
  | removeBlob (id : String)
  deriving DecidableEq

def applyMicro : MicroOp → StoreState → StoreState
  | .writeBlob id data, st => { st with blobs := insertAssoc id data st.blobs }
  | .insertIndex id info, st => { st with index := insertAssoc id info st.index }
  | .removeIndex id, st => { st with index := removeAssoc id st.index }
  | .removeBlob id, st => { st with blobs := removeAssoc id st.blobs }

def applyMicros (ops : List MicroOp) (st : StoreState) : StoreState :=
  ops.foldl (fun s op => applyMicro op s) st

/-- The micro-step decomposition of one upload: blob write (line 309) before
index insert (line 318). -/
def uploadMicros (id : String) (info : FileInfo) (data : List Nat) : List MicroOp :=
  [.writeBlob id data, .insertIndex id info]

/-- The micro-step decomposition of one sweep removal: index removal
(line 356) before blob deletion (line 358). -/
def sweepRemoveMicros (id : String) : List MicroOp :=
  [.removeIndex id, .removeBlob id]

/-- States of the store reachable under the code's actual locking: complete
uploads and sweep removals, and also the states in the middle of either
(after the blob write, before the index insert; after the index removal,
before the blob deletion), since the mutex does not span the two steps. -/
inductive ReachableMicro : StoreState → Prop
  | init : ReachableMicro emptyStore
  | uploadDone (s : StoreState) (id : String) (info : FileInfo) (data : List Nat) :
      ReachableMicro s → ReachableMicro (applyMicros (uploadMicros id info data) s)
  | uploadMid (s : StoreState) (id : String) (data : List Nat) :
      ReachableMicro s → ReachableMicro (applyMicro (.writeBlob id data) s)
  | sweepDone (s : StoreState) (id : String) :
      ReachableMicro s → ReachableMicro (applyMicros (sweepRemoveMicros id) s)
  | sweepMid (s : StoreState) (id : String) :
      ReachableMicro s → ReachableMicro (applyMicro (.removeIndex id) s)

/-- Store states reachable by complete operations only (every upload and
sweep removal runs to completion before the state is observed). -/
inductive ReachableComplete : StoreState → Prop
  | init : ReachableComplete emptyStore
  | upload (s : StoreState) (id : String) (info : FileInfo) (data : List Nat) :
      ReachableComplete s → ReachableComplete (applyMicros (uploadMicros id info data) s)
  | sweepRem (s : StoreState) (id : String) :
      ReachableComplete s → ReachableComplete (applyMicros (sweepRemoveMicros id) s)

/-- The spec's store invariant: an id is visible in the index iff its blob
exists in the backing store (stated on key sets). -/
def storeKeysInv (s : StoreState) : Prop :=
  (s.index.map Prod.fst).toFinset = (s.blobs.map Prod.fst).toFinset

/-! ### Helper lemmas -/

/-- The saturating branch structure of `castI32` on finite values, as a
clamp. -/
theorem castI32_fin_clamp (q : ℚ) :
    castI32 (.fin q) = max (-(2 ^ 31)) (min (2 ^ 31 - 1) (ratTrunc q)) := by
  show (if ratTrunc q < -(2 ^ 31) then -(2 ^ 31)
      else if 2 ^ 31 - 1 < ratTrunc q then 2 ^ 31 - 1
      else ratTrunc q) = _
  rcases lt_trichotomy (ratTrunc q) (-(2 ^ 31)) with h | h | h <;>
    simp [h, max_def, min_def] <;> omega

/-- Truncation toward zero is odd (this separates it from floor and ceil). -/
theorem ratTrunc_neg (q : ℚ) : ratTrunc (-q) = -(ratTrunc q) := by
  unfold ratTrunc
  rcases lt_trichotomy q 0 with h | h | h
  · rw [if_pos (by linarith), if_neg (by linarith), Int.floor_neg]
  · simp [h]
  · rw [if_neg (by linarith), if_pos (by linarith), Int.ceil_neg]

/-- Truncation toward zero fixes the integers. -/
theorem ratTrunc_intCast (n : ℤ) : ratTrunc (n : ℚ) = n := by
  unfold ratTrunc
  split <;> simp

/-! ### Claim C1: scroll translation -/

/-- C1 counterexample: the claim says the vertical wheel delta equals
`round(dy / 10)`, but the code computes `(dy / 10.0) as i32`, which
truncates.  At `Scroll{dx = 0, dy = 15}` the code emits a wheel delta of
`1` while `round(15 / 10) = 2`. -/
theorem scroll_round_counterexample :
    handleEvent (.scroll (.fin 0) (.fin 15)) =
      [[DeviceAction.rel REL_WHEEL 1, DeviceAction.syn]]
    ∧ round ((15 : ℚ) / 10) = 2 ∧ (1 : Int) ≠ 2 := by
  refine ⟨?_, by norm_num [round_eq], by decide⟩
  simp [handleEvent, fgt, fabs, fdiv10, castI32, ratTrunc, lit01]
  norm_num

/-- C1 (amended): for `Scroll{dx, dy}`, the translator emits one gesture:
a vertical wheel delta equal to the saturating truncation of `dy / 10` only
when `|dy| > 0.1`, then a horizontal h-wheel delta equal to the negation of
the saturating truncation of `dx / 10` only when `|dx| > 0.1`, then exactly
one trailing sync-barrier; when both axes are at or below the threshold the
gesture is the sync-barrier alone. -/
theorem scroll_gesture_spec :
    (∀ dx dy : ℚ, handleEvent (.scroll (.fin dx) (.fin dy)) =
      [(if lit01 < |dy| then
          [DeviceAction.rel REL_WHEEL (max (-(2 ^ 31)) (min (2 ^ 31 - 1) (ratTrunc (dy / 10))))]
        else [])
        ++ (if lit01 < |dx| then
              [DeviceAction.rel REL_HWHEEL
                (i32neg (max (-(2 ^ 31)) (min (2 ^ 31 - 1) (ratTrunc (dx / 10)))))]
            else [])
        ++ [DeviceAction.syn]])
    ∧ (∀ dx dy : F64, ∃ g pre, handleEvent (.scroll dx dy) = [g]
        ∧ g = pre ++ [DeviceAction.syn] ∧ DeviceAction.syn ∉ pre) := by
  constructor
  · intro dx dy
    simp only [handleEvent, fgt, fabs, fdiv10, decide_eq_true_eq, castI32_fin_clamp]
  · intro dx dy
    cases h1 : fgt (fabs dy) lit01 <;> cases h2 : fgt (fabs dx) lit01 <;>
      simp only [handleEvent, h1, h2, if_true, if_false, List.nil_append,
        List.cons_append]
    · exact ⟨_, [], rfl, rfl, by simp⟩
    · exact ⟨_, [DeviceAction.rel REL_HWHEEL (i32neg (castI32 (fdiv10 dx)))], rfl, rfl, by simp⟩
    · exact ⟨_, [DeviceAction.rel REL_WHEEL (castI32 (fdiv10 dy))], rfl, rfl, by simp⟩
    · exact ⟨_, [DeviceAction.rel REL_WHEEL (castI32 (fdiv10 dy)),
        DeviceAction.rel REL_HWHEEL (i32neg (castI32 (fdiv10 dx)))], rfl, rfl, by simp⟩

/-! ### Claim C3: swipe translation -/

/-- C3: `Swipe{direction}` with direction `"left"` or `"right"` emits
modifier-down, arrow-down, arrow-up, modifier-up, each its own
sync-terminated gesture in that order; any other direction emits nothing. -/
theorem swipe_gesture_spec (direction : String) :
    handleEvent (.swipe direction) =
      (if direction = "left" ∨ direction = "right" then
        [[DeviceAction.key KEY_LEFTALT 1, DeviceAction.syn],
         [DeviceAction.key (if direction = "left" then KEY_LEFT else KEY_RIGHT) 1,
           DeviceAction.syn],
         [DeviceAction.key (if direction = "left" then KEY_LEFT else KEY_RIGHT) 0,
           DeviceAction.syn],
         [DeviceAction.key KEY_LEFTALT 0, DeviceAction.syn]]
      else []) := by
  by_cases h1 : direction = "left"
  · subst h1; simp [handleEvent]
  · by_cases h2 : direction = "right"
    · subst h2; simp [handleEvent]
    · simp [handleEvent, h1, h2]

/-! ### Claim C4: click translation -/

/-- C4: `Click{button}` emits key-down(button) + sync then key-up(button) +
sync, down strictly before up, and any button string outside
{left, right, middle} behaves identically to `Click{"left"}`. -/
theorem click_gesture_spec (button : String) :
    handleEvent (.click button) =
      [[DeviceAction.key (clickKey button) 1, DeviceAction.syn],
       [DeviceAction.key (clickKey button) 0, DeviceAction.syn]]
    ∧ (button ≠ "left" → button ≠ "right" → button ≠ "middle" →
        handleEvent (.click button) = handleEvent (.click "left")) := by
  refine ⟨rfl, fun h1 h2 h3 => ?_⟩
  simp [handleEvent, clickKey, h1, h2, h3]

/-- Witness for C4 at the concrete unknown button `"bogus"`. -/
theorem click_gesture_spec_witness :
    handleEvent (.click "bogus") = handleEvent (.click "left") :=
  (click_gesture_spec "bogus").2 (by decide) (by decide) (by decide)

/-! ### Claim C7: clipboard routing -/

/-- C7: a `Clipboard{content}` event produces zero device actions in the
translator; the websocket dispatch publishes it to the clipboard broadcast
channel (tagged `source = "Client"`) instead of emitting to the device. -/
theorem clipboard_routing_spec (content : String) (now : Nat) :
    handleEvent (.clipboard content) = []
    ∧ dispatchEvent now (.clipboard content) = ([], [⟨content, now, "Client"⟩])
    ∧ (∀ ev : TrackpadEvent, (∀ c, ev ≠ .clipboard c) →
        dispatchEvent now ev = (handleEvent ev, [])) := by
  refine ⟨rfl, rfl, fun ev h => ?_⟩
  cases ev with
  | clipboard c => exact absurd rfl (h c)
  | _ => rfl

/-- Witness for C7: the non-clipboard side of the dispatch at a concrete
event. -/
theorem clipboard_routing_spec_witness :
    dispatchEvent 7 .dragStart = (handleEvent .dragStart, []) :=
  (clipboard_routing_spec "x" 7).2.2 .dragStart (by intro c h; cases h)

/-! ### Claim C8: move translation and the `as i32` cast -/

/-- C8: `Move{dx, dy}` emits one gesture whose relative-move deltas are the
Rust saturating float-to-int casts of `dx` and `dy`: NaN maps to 0,
finite values are truncated toward zero and clamped to
`[-2^31, 2^31 - 1]`, and every cast result lies in that range. -/
theorem move_cast_spec (dx dy : F64) :
    handleEvent (.move dx dy) =
      [[DeviceAction.rel REL_X (castI32 dx), DeviceAction.rel REL_Y (castI32 dy),
        DeviceAction.syn]]
    ∧ castI32 F64.nan = 0
    ∧ (∀ q : ℚ, castI32 (.fin q) = max (-(2 ^ 31)) (min (2 ^ 31 - 1) (ratTrunc q)))
    ∧ (∀ x : F64, -(2 ^ 31) ≤ castI32 x ∧ castI32 x ≤ 2 ^ 31 - 1)
    ∧ (∀ q : ℚ, ratTrunc (-q) = -(ratTrunc q))
    ∧ (∀ n : ℤ, ratTrunc (n : ℚ) = n) := by
  refine ⟨rfl, rfl, castI32_fin_clamp, fun x => ?_, ratTrunc_neg, ratTrunc_intCast⟩
  cases x with
  | nan => constructor <;> norm_num [castI32]
  | pinf => constructor <;> norm_num [castI32]
  | ninf => constructor <;> norm_num [castI32]
  | fin q => rw [castI32_fin_clamp]; constructor <;> omega

/-! ### Store helper lemmas -/

/-- In an association list with no duplicate keys, a key determines its
value. -/
theorem assoc_nodup_eq {α : Type} {l : List (String × α)}
    (h : (l.map Prod.fst).Nodup) {k : String} {v w : α}
    (hv : (k, v) ∈ l) (hw : (k, w) ∈ l) : v = w := by
  induction l with
  | nil => simp at hv
  | cons p t ih =>
      rw [List.map_cons, List.nodup_cons] at h
      rcases List.mem_cons.1 hv with hv1 | hv1
      · rcases List.mem_cons.1 hw with hw1 | hw1
        · have hvw : (k, v) = (k, w) := hv1.trans hw1.symm
          injection hvw
        · exfalso
          apply h.1
          have hk : p.1 = k := by rw [← hv1]
          rw [hk]
          exact List.mem_map_of_mem Prod.fst hw1
      · rcases List.mem_cons.1 hw with hw1 | hw1
        · exfalso
          apply h.1
          have hk : p.1 = k := by rw [← hw1]
          rw [hk]
          exact List.mem_map_of_mem Prod.fst hv1
        · exact ih h.2 hv1 hw1

/-- Membership in the collected expired-id list of a sweep pass. -/
theorem mem_expiredIds_iff (now : Nat) (st : StoreState) (id : String) :
    id ∈ expiredIds now st ↔
      ∃ info, (id, info) ∈ st.index ∧ isExpired now info = true := by
  unfold expiredIds
  constructor
  · intro h
    rcases List.mem_map.1 h with ⟨p, hp, rfl⟩
    rcases List.mem_filter.1 hp with ⟨hmem, hexp⟩
    exact ⟨p.2, hmem, hexp⟩
  · rintro ⟨info, hmem, hexp⟩
    exact List.mem_map.2 ⟨(id, info), List.mem_filter.2 ⟨hmem, hexp⟩, rfl⟩

/-- Under the `HashMap` no-duplicate-key invariant, a record of the index is
collected as expired exactly when its own timestamp is expired. -/
theorem expiredIds_contains_iff (now : Nat) (st : StoreState) (id : String)
    (info : FileInfo) (hnodup : (st.index.map Prod.fst).Nodup)
    (hmem : (id, info) ∈ st.index) :
    (expiredIds now st).contains id = isExpired now info := by
  rcases hexp : isExpired now info with _ | _
  · rw [Bool.eq_false_iff]
    intro hc
    rcases (mem_expiredIds_iff now st id).1 (List.elem_iff.1 hc) with ⟨info2, hmem2, hexp2⟩
    rw [assoc_nodup_eq hnodup hmem hmem2, hexp2] at hexp
    cases hexp
  · exact List.elem_iff.2 ((mem_expiredIds_iff now st id).2 ⟨info, hmem, hexp⟩)

/-- Index membership after one sweep pass (no-duplicate-key stores). -/
theorem sweep_index_mem_iff (now : Nat) (st : StoreState) (id : String)
    (info : FileInfo) (hnodup : (st.index.map Prod.fst).Nodup) :
    (id, info) ∈ (sweep now st).index ↔
      (id, info) ∈ st.index ∧ wsub64 now info.uploaded_at ≤ 3600 := by
  unfold sweep
  simp only [List.mem_filter]
  constructor
  · rintro ⟨hmem, hkeep⟩
    refine ⟨hmem, ?_⟩
    rw [expiredIds_contains_iff now st id info hnodup hmem] at hkeep
    unfold isExpired at hkeep
    simp at hkeep
    omega
  · rintro ⟨hmem, hle⟩
    refine ⟨hmem, ?_⟩
    rw [expiredIds_contains_iff now st id info hnodup hmem]
    unfold isExpired
    simp
    omega

/-- Blob removal by a sweep pass: an expired record's backing blob is gone
afterwards. -/
theorem sweep_blob_removed (now : Nat) (st : StoreState) (id : String)
    (info : FileInfo) (hnodup : (st.index.map Prod.fst).Nodup)
    (hmem : (id, info) ∈ st.index)
    (hexp : 3600 < wsub64 now info.uploaded_at) :
    ∀ b, (id, b) ∉ (sweep now st).blobs := by
  intro b hb
  unfold sweep at hb
  simp only [List.mem_filter] at hb
  have hkeep := hb.2
  rw [expiredIds_contains_iff now st id info hnodup hmem] at hkeep
  unfold isExpired at hkeep
  simp at hkeep
  omega

/-! ### Claim C5: sweep expiry -/

def oldInfo : FileInfo := ⟨"old", "a.txt", 3, 100⟩
def newInfo : FileInfo := ⟨"new", "b.txt", 4, 2000⟩
def sampleStore : StoreState :=
  ⟨[("old", oldInfo), ("new", newInfo)], [("old", [1]), ("new", [2])]⟩

/-- C5: a sweep pass at time `now` removes exactly the records whose `u64`
age `now - uploaded_at` exceeds 3600 seconds and deletes their blobs;
records at or below 3600 are retained unchanged. -/
theorem sweep_spec (st : StoreState) (now : Nat) (id : String) (info : FileInfo)
    (hnodup : (st.index.map Prod.fst).Nodup) :
    ((id, info) ∈ (sweep now st).index ↔
      (id, info) ∈ st.index ∧ wsub64 now info.uploaded_at ≤ 3600)
    ∧ ((id, info) ∈ st.index → 3600 < wsub64 now info.uploaded_at →
        ∀ b, (id, b) ∉ (sweep now st).blobs) :=
  ⟨sweep_index_mem_iff now st id info hnodup,
   fun hmem hexp => sweep_blob_removed now st id info hnodup hmem hexp⟩

/-- Witness for C5 on a concrete two-record store swept at `now = 5000`:
the record uploaded at 100 (age 4900) is expired, the one uploaded at 2000
(age 3000) is not. -/
theorem sweep_spec_witness :
    ((("old", oldInfo) ∈ (sweep 5000 sampleStore).index ↔
      ("old", oldInfo) ∈ sampleStore.index ∧ wsub64 5000 oldInfo.uploaded_at ≤ 3600)
    ∧ (("old", oldInfo) ∈ sampleStore.index → 3600 < wsub64 5000 oldInfo.uploaded_at →
        ∀ b, ("old", b) ∉ (sweep 5000 sampleStore).blobs))
    ∧ ("new", newInfo) ∈ (sweep 5000 sampleStore).index :=
  ⟨sweep_spec sampleStore 5000 "old" oldInfo (by decide),
   (sweep_spec sampleStore 5000 "new" newInfo (by decide)).1.2 ⟨by decide, by decide⟩⟩

/-! ### Claim C9: future-dated records and the wrapping subtraction -/

def farFutureInfo : FileInfo := ⟨"f", "future.bin", 0, 2 ^ 64 - 1⟩
def farFutureStore : StoreState := ⟨[("f", farFutureInfo)], [("f", [])]⟩

/-- C9 counterexample: the claim says every record with `uploaded_at > now`
is removed, but with `now = 0` and `uploaded_at = 2^64 - 1` the wrapped
`u64` difference is `1 ≤ 3600`, so the sweep retains the record. -/
theorem sweep_future_counterexample :
    0 < farFutureInfo.uploaded_at
    ∧ wsub64 0 farFutureInfo.uploaded_at = 1
    ∧ (sweep 0 farFutureStore).index = farFutureStore.index
    ∧ (sweep 0 farFutureStore).blobs = farFutureStore.blobs := by
  refine ⟨by decide, by decide, by decide, by decide⟩

/-- C9 (amended): the expiry test is computed in wrapping `u64` arithmetic,
so a future-dated record (`uploaded_at > now`) is removed, with its blob,
exactly when its wrapped difference exceeds 3600 — that is, whenever
`uploaded_at - now < 2^64 - 3600` (all but the last 3600 seconds before the
wrap-around point). -/
theorem sweep_future_spec (st : StoreState) (now : Nat) (id : String)
    (info : FileInfo) (hnodup : (st.index.map Prod.fst).Nodup)
    (hnow : now < 2 ^ 64) (hup : info.uploaded_at < 2 ^ 64)
    (hfut : now < info.uploaded_at)
    (hbound : info.uploaded_at - now < 2 ^ 64 - 3600)
    (hmem : (id, info) ∈ st.index) :
    (id, info) ∉ (sweep now st).index ∧ ∀ b, (id, b) ∉ (sweep now st).blobs := by
  have hexp : 3600 < wsub64 now info.uploaded_at := by
    unfold wsub64
    omega
  constructor
  · intro hc
    rcases (sweep_index_mem_iff now st id info hnodup).1 hc with ⟨_, hle⟩
    omega
  · exact sweep_blob_removed now st id info hnodup hmem hexp

def nearFutureInfo : FileInfo := ⟨"f", "soon.bin", 0, 200⟩
def nearFutureStore : StoreState := ⟨[("f", nearFutureInfo)], [("f", [5])]⟩

/-- Witness for the amended C9: a record dated 100 seconds into the future
(`now = 100`, `uploaded_at = 200`) is removed together with its blob. -/
theorem sweep_future_spec_witness :
    ("f", nearFutureInfo) ∉ (sweep 100 nearFutureStore).index
    ∧ ∀ b, ("f", b) ∉ (sweep 100 nearFutureStore).blobs :=
  sweep_future_spec nearFutureStore 100 "f" nearFutureInfo (by decide)
    (by decide) (by decide) (by decide) (by decide) (by decide)

/-! ### Claim C2: the index/blob coupling invariant -/

/-- Key set after a replace-on-insert. -/
theorem keys_insertAssoc {α : Type} (k : String) (v : α) (l : List (String × α)) :
    ((insertAssoc k v l).map Prod.fst).toFinset =
      insert k ((l.map Prod.fst).toFinset) := by
  ext a
  simp only [insertAssoc, List.map_cons, List.toFinset_cons, Finset.mem_insert,
    List.mem_toFinset, List.mem_map, List.mem_filter, Bool.not_eq_eq_eq_not,
    Bool.not_true, beq_eq_false_iff_ne, ne_eq]
  constructor
  · rintro (rfl | ⟨x, ⟨hx, _⟩, rfl⟩)
    · exact Or.inl rfl
    · exact Or.inr ⟨x, hx, rfl⟩
  · rintro (rfl | ⟨x, hx, rfl⟩)
    · exact Or.inl rfl
    · by_cases hxk : x.1 = k
      · exact Or.inl hxk
      · exact Or.inr ⟨x, ⟨hx, hxk⟩, rfl⟩

/-- Key set after a removal. -/
theorem keys_removeAssoc {α : Type} (k : String) (l : List (String × α)) :
    ((removeAssoc k l).map Prod.fst).toFinset =
      ((l.map Prod.fst).toFinset).erase k := by
  ext a
  simp only [removeAssoc, Finset.mem_erase, List.mem_toFinset, List.mem_map,
    List.mem_filter, Bool.not_eq_eq_eq_not, Bool.not_true, beq_eq_false_iff_ne,
    ne_eq]
  constructor
  · rintro ⟨x, ⟨hx, hne⟩, rfl⟩
    exact ⟨hne, x, hx, rfl⟩
  · rintro ⟨hne, x, hx, rfl⟩
    exact ⟨x, ⟨hx, hne⟩, rfl⟩

def midUploadState : StoreState := applyMicro (.writeBlob "b1" [7]) emptyStore

/-- C2 counterexample: insert is not a single critical section covering the
index and the blob.  The upload writes the blob file before taking the store
mutex to insert the index entry, so the state right after the blob write is
reachable, and there the blob `"b1"` exists while no record is visible:
the claimed if-and-only-if invariant fails. -/
theorem store_inv_counterexample :
    ReachableMicro midUploadState ∧ ¬ storeKeysInv midUploadState :=
  ⟨ReachableMicro.uploadMid emptyStore "b1" [7] ReachableMicro.init,
   by unfold storeKeysInv; decide⟩

/-- C2 (amended): the blob write precedes the index insert and the index
removal precedes the blob delete, neither pair inside one critical section,
so mid-operation states violating the coupling are reachable; the invariant
"a record is visible iff its blob exists" does hold at every state reached
by completed uploads and sweep removals. -/
theorem store_inv_complete_ops (s : StoreState) (h : ReachableComplete s) :
    storeKeysInv s := by
  induction h with
  | init => rfl
  | upload s id info data _ ih =>
      unfold storeKeysInv at ih ⊢
      simp only [applyMicros, uploadMicros, List.foldl_cons, List.foldl_nil,
        applyMicro, keys_insertAssoc, ih]
  | sweepRem s id _ ih =>
      unfold storeKeysInv at ih ⊢
      simp only [applyMicros, sweepRemoveMicros, List.foldl_cons, List.foldl_nil,
        applyMicro, keys_removeAssoc, ih]

/-- Witness for the amended C2: the state after one completed upload
satisfies the invariant. -/
theorem store_inv_complete_ops_witness :
    storeKeysInv (applyMicros (uploadMicros "a" oldInfo [1, 2]) emptyStore) :=
  store_inv_complete_ops _
    (ReachableComplete.upload emptyStore "a" oldInfo [1, 2] ReachableComplete.init)

/-! ### Claim C6: upload with no "file" part -/

/-- C6: a multipart body with no part named `"file"` yields the
`{"error": "No file uploaded"}` reply, leaves the store (index and blobs)
unchanged, and publishes nothing. -/
theorem upload_no_file_spec (freshId : String) (now : Nat) (parts : List Part)
    (st : StoreState) (h : ∀ p ∈ parts, p.name ≠ "file") :
    handle_upload freshId now parts st = (.err "No file uploaded", st, []) := by
  induction parts with
  | nil => rfl
  | cons p rest ih =>
      simp only [handle_upload]
      rw [if_neg (h p (List.mem_cons_self p rest))]
      exact ih fun q hq => h q (List.mem_cons_of_mem p hq)

def otherPart : Part := ⟨"other", none, [3]⟩

/-- Witness for C6 on a concrete one-part body named `"other"`. -/
theorem upload_no_file_spec_witness :
    handle_upload "id1" 42 [otherPart] emptyStore =
      (.err "No file uploaded", emptyStore, []) :=
  upload_no_file_spec "id1" 42 [otherPart] emptyStore (by decide)

/-! ### Claim C10: first "file" part wins; default filename -/

/-- C10: the handler processes exactly the first part named `"file"`: it
creates one record from that part (filename defaulting to `"unnamed"` when
the part carries none) and returns immediately, so all later parts —
including later `"file"` parts — are ignored. -/
theorem upload_first_file_spec (freshId : String) (now : Nat) (pre post : List Part)
    (p : Part) (st : StoreState)
    (hpre : ∀ q ∈ pre, q.name ≠ "file") (hp : p.name = "file") :
    handle_upload freshId now (pre ++ p :: post) st =
      (.ok freshId (p.filename.getD "unnamed"),
       { index := insertAssoc freshId
           ⟨freshId, p.filename.getD "unnamed", p.data.length, now⟩ st.index,
         blobs := insertAssoc freshId p.data st.blobs },
       [⟨"File uploaded: " ++ p.filename.getD "unnamed", now, "System"⟩]) := by
  induction pre with
  | nil =>
      simp only [List.nil_append, handle_upload]
      rw [if_pos hp]
  | cons q rest ih =>
      simp only [List.cons_append, handle_upload]
      rw [if_neg (hpre q (List.mem_cons_self q rest))]
      exact ih fun r hr => hpre r (List.mem_cons_of_mem q hr)

def filePart : Part := ⟨"file", none, [9, 9]⟩
def laterFilePart : Part := ⟨"file", some "b.txt", [1]⟩

/-- Witness for C10: with parts `[other, file (no filename), file]` only the
middle part is stored, under the name `"unnamed"`; the trailing `"file"`
part is ignored. -/
theorem upload_first_file_spec_witness :
    handle_upload "u1" 50 [otherPart, filePart, laterFilePart] emptyStore =
      (.ok "u1" "unnamed",
       { index := insertAssoc "u1" ⟨"u1", "unnamed", 2, 50⟩ emptyStore.index,
         blobs := insertAssoc "u1" filePart.data emptyStore.blobs },
       [⟨"File uploaded: unnamed", 50, "System"⟩]) :=
  upload_first_file_spec "u1" 50 [otherPart] [laterFilePart] filePart emptyStore
    (by decide) (by decide)

end MobileTrackpad
